import Mathlib

/-!
Shallow embedding of the Jira/Graylog CLI tool (cmd/graylog.go, cmd/jira.go):
the Jira vendor client (auth header selection, issue create/update payloads
with custom-field merging, transition wrapping, issue search, paginated
assets search) and the CLI option seeding / command error-flow.

JSON values are modelled by an inductive type; Go maps `map[string]interface{}`
become association lists (Go maps are unordered; where the source marshals a
map, `encoding/json` sorts keys, and where order matters we state properties
via key lookup). Bytes are `List Nat`. HTTP transport is a parameter: an
operation receives the outcome of each GET/POST/PUT it performs.
-/

namespace Tools

/-- A decoded JSON value (`interface{}` after `json.Unmarshal`).  Go decodes
numbers to `float64`; all numbers appearing in the modelled claims are
integers, so numbers are carried as `Int`. -/
inductive Json where
  | null
  | bool (b : Bool)
  | num (n : Int)
  | str (s : String)
  | arr (xs : List Json)
  | obj (kvs : List (String × Json))

/-- Go map read `m[k]`: the first binding of `k`, `none` when absent
(Go yields a nil interface). -/
def lookupKey (kvs : List (String × Json)) (k : String) : Option Json :=
  match kvs with
  | [] => none
  | (k', v) :: rest => if k' = k then some v else lookupKey rest k

/-- Go map write `m[k] = v`: replace the binding of `k`, or add it. -/
def setKey (kvs : List (String × Json)) (k : String) (v : Json) : List (String × Json) :=
  match kvs with
  | [] => [(k, v)]
  | (k', v') :: rest => if k' = k then (k, v) :: rest else (k', v') :: setKey rest k v

/-- UTF-8 encoding of one character. -/
def utf8Bytes (c : Char) : List Nat :=
  let n := c.toNat
  if n < 128 then [n]
  else if n < 2048 then [192 + n / 64, 128 + n % 64]
  else if n < 65536 then [224 + n / 4096, 128 + n / 64 % 64, 128 + n % 64]
  else [240 + n / 262144, 128 + n / 4096 % 64, 128 + n / 64 % 64, 128 + n % 64]

/-- UTF-8 bytes of a string (Go strings are byte slices). -/
def stringToBytes (s : String) : List Nat :=
  (s.toList.map utf8Bytes).flatten

/-- Hex digit used by percent-encoding (`net/url` uses upper case). -/
def hexDigit (n : Nat) : Char :=
  "0123456789ABCDEF".toList.getD n '0'

/-- `encoding/json` escaping of one string byte (quote, backslash, control
characters, and the HTML-sensitive characters that Go escapes by default). -/
def jsonEscapeChar (c : Char) : String :=
  if c = '"' then "\\\""
  else if c = '\\' then "\\\\"
  else if c = '\n' then "\\n"
  else if c = '\r' then "\\r"
  else if c = '\t' then "\\t"
  else if c = '<' then "\\u003c"
  else if c = '>' then "\\u003e"
  else if c = '&' then "\\u0026"
  else if c.toNat < 32 then
    "\\u00" ++ String.singleton (hexDigit (c.toNat / 16)) ++ String.singleton (hexDigit (c.toNat % 16))
  else String.singleton c

def jsonEscape (s : String) : String :=
  String.join (s.toList.map jsonEscapeChar)

mutual

/-- `json.Marshal` of a decoded value.  Objects serialize in list order;
wherever the source marshals a Go map we construct the list already sorted
by key, matching `encoding/json`'s map-key ordering. -/
def serializeJson : Json → String
  | Json.null => "null"
  | Json.bool b => if b then "true" else "false"
  | Json.num n => toString n
  | Json.str s => "\"" ++ jsonEscape s ++ "\""
  | Json.arr xs => "[" ++ serializeJsonList xs ++ "]"
  | Json.obj kvs => "\x7b" ++ serializeJsonFields kvs ++ "\x7d"

def serializeJsonList : List Json → String
  | [] => ""
  | [x] => serializeJson x
  | x :: y :: rest => serializeJson x ++ "," ++ serializeJsonList (y :: rest)

def serializeJsonFields : List (String × Json) → String
  | [] => ""
  | [(k, v)] => "\"" ++ jsonEscape k ++ "\":" ++ serializeJson v
  | (k, v) :: kv :: rest =>
      "\"" ++ jsonEscape k ++ "\":" ++ serializeJson v ++ "," ++ serializeJsonFields (kv :: rest)

end

/-- Alphabet of `base64.StdEncoding`. -/
def base64Alphabet : String :=
  "ABCDEFGHIJKLMNOPQRSTUVWXYZabcdefghijklmnopqrstuvwxyz0123456789+/"

def base64Char (n : Nat) : Char :=
  base64Alphabet.toList.getD n 'A'

/-- `base64.StdEncoding.EncodeToString`: 3-byte groups to 4 alphabet
characters, `=`-padded tail. -/
def base64Encode : List Nat → String
  | [] => ""
  | [b0] =>
      String.mk [base64Char (b0 / 4), base64Char (b0 % 4 * 16), '=', '=']
  | [b0, b1] =>
      String.mk [base64Char (b0 / 4), base64Char (b0 % 4 * 16 + b1 / 16),
                 base64Char (b1 % 16 * 4), '=']
  | b0 :: b1 :: b2 :: rest =>
      String.mk [base64Char (b0 / 4), base64Char (b0 % 4 * 16 + b1 / 16),
                 base64Char (b1 % 16 * 4 + b2 / 64), base64Char (b2 % 64)] ++
      base64Encode rest

/-- Bytes `net/url` leaves unescaped in a query component: ASCII
alphanumerics and `-`, `_`, `.`, `~`. -/
def isUnreservedQueryByte (b : Nat) : Bool :=
  decide ((65 ≤ b ∧ b ≤ 90) ∨ (97 ≤ b ∧ b ≤ 122) ∨ (48 ≤ b ∧ b ≤ 57) ∨
          b = 45 ∨ b = 95 ∨ b = 46 ∨ b = 126)

/-- `url.QueryEscape` of one byte: unreserved bytes pass, space becomes `+`,
the rest percent-encode in upper-case hex. -/
def queryEscapeByte (b : Nat) : String :=
  if isUnreservedQueryByte b then String.singleton (Char.ofNat b)
  else if b = 32 then "+"
  else "%" ++ String.singleton (hexDigit (b / 16)) ++ String.singleton (hexDigit (b % 16))

def queryEscape (s : String) : String :=
  String.join ((stringToBytes s).map queryEscapeByte)

/-- Lexicographic character-list comparison (byte order on UTF-8 strings,
as Go's `sort.Strings` uses). -/
def strLtChars : List Char → List Char → Bool
  | [], [] => false
  | [], _ :: _ => true
  | _ :: _, [] => false
  | a :: as, b :: bs =>
    if a.toNat < b.toNat then true
    else if b.toNat < a.toNat then false
    else strLtChars as bs

def strLt (a b : String) : Bool :=
  strLtChars a.toList b.toList

/-- Insertion step of the key sort performed by `url.Values.Encode`. -/
def insertByKey (kv : String × String) : List (String × String) → List (String × String)
  | [] => [kv]
  | h :: t => if strLt h.1 kv.1 then h :: insertByKey kv t else kv :: h :: t

def sortByKey : List (String × String) → List (String × String)
  | [] => []
  | kv :: rest => insertByKey kv (sortByKey rest)

/-- Concatenation with a separator (`strings.Join`). -/
def joinSep (sep : String) : List String → String
  | [] => ""
  | [x] => x
  | x :: y :: rest => x ++ sep ++ joinSep sep (y :: rest)

/-- `url.Values.Encode`: keys sorted, each `k=v` pair query-escaped and
joined with `&`. -/
def urlValuesEncode (params : List (String × String)) : String :=
  joinSep "&"
    ((sortByKey params).map (fun kv => queryEscape kv.1 ++ "=" ++ queryEscape kv.2))

/-- `url.Values.Set`: replace all previous values of the key with one value. -/
def valuesSet (params : List (String × String)) (k v : String) : List (String × String) :=
  (params.filter (fun kv => kv.1 ≠ k)) ++ [(k, v)]

/-- Splitting a character list at `/` (`strings.Split` on one-byte `/`). -/
def splitOnSlashAux (cur : List Char) : List Char → List String
  | [] => [String.mk cur.reverse]
  | c :: rest =>
    if c = '/' then String.mk cur.reverse :: splitOnSlashAux [] rest
    else splitOnSlashAux (c :: cur) rest

def splitOnSlash (s : String) : List String :=
  splitOnSlashAux [] s.toList

def startsWithSlash (s : String) : Bool :=
  match s.toList with
  | c :: _ => c = '/'
  | [] => false

/-- Element scan of `path.Clean`: drop empty and `.` elements, resolve `..`
against the stack (at the root, a surplus `..` disappears). -/
def cleanStack (rooted : Bool) (stack : List String) : List String → List String
  | [] => stack.reverse
  | e :: rest =>
    if e = "" ∨ e = "." then cleanStack rooted stack rest
    else if e = ".." then
      match stack with
      | t :: s => if t = ".." then cleanStack rooted (".." :: t :: s) rest else cleanStack rooted s rest
      | [] => if rooted then cleanStack rooted [] rest else cleanStack rooted [".."] rest
    else cleanStack rooted (e :: stack) rest

/-- `path.Clean`. -/
def pathClean (p : String) : String :=
  if p = "" then "."
  else
    let rooted := startsWithSlash p
    let out := joinSep "/" (cleanStack rooted [] (splitOnSlash p))
    if rooted then "/" ++ out
    else if out = "" then "." else out

/-- `path.Join` of two elements as used with `u.Path`. -/
def pathJoin (a b : String) : String :=
  if a = "" ∧ b = "" then ""
  else if a = "" then pathClean b
  else pathClean (a ++ "/" ++ b)

/-- `utils.IsEmpty` on a string: an external-library emptiness helper,
modelled as the empty-string test. -/
def isEmptyStr (s : String) : Bool :=
  s = ""

structure JiraOptions where
  url : String
  timeout : Int
  insecure : Bool
  user : String
  password : String
  accessToken : String

structure JiraIssueCreateOptions where
  projectKey : String
  issueType : String
  priority : String
  assignee : String
  reporter : String

structure JiraIssueOptions where
  idOrKey : String
  summary : String
  description : String
  customFields : String
  status : String
  labels : List String

structure JiraIssueSearchOptions where
  searchPattern : String
  maxResults : Int

structure JiraAssetsSearchOptions where
  searchPattern : String
  resultPerPage : Int

/-- `Jira.getAuth`: basic auth when a user is set, else bearer auth when an
access token is set, else the empty header value. -/
def getAuth (opts : JiraOptions) : String :=
  if ¬ isEmptyStr opts.user then
    "Basic " ++ base64Encode (stringToBytes (opts.user ++ ":" ++ opts.password))
  else if ¬ isEmptyStr opts.accessToken then
    "Bearer " ++ opts.accessToken
  else ""

structure JiraIssueProject where
  key : String

structure JiraIssueType where
  name : String

structure JiraIssuePriority where
  name : String

structure JiraIssueAssignee where
  name : String

structure JiraIssueReporter where
  name : String

/-- `JiraIssueFields`; the five sub-object fields are pointers in the source
(`none` = nil pointer). -/
structure JiraIssueFields where
  project : Option JiraIssueProject
  issueType : Option JiraIssueType
  summary : String
  description : String
  labels : List String
  priority : Option JiraIssuePriority
  assignee : Option JiraIssueAssignee
  reporter : Option JiraIssueReporter

/-- `omitempty` rendering of a string field: dropped when empty. -/
def strField (k s : String) : List (String × Json) :=
  if s = "" then [] else [(k, Json.str s)]

/-- `omitempty` rendering of a `{"key": ...}` sub-object pointer field:
dropped when nil. -/
def keyObjField (k : String) (v : Option String) : List (String × Json) :=
  match v with
  | some s => [(k, Json.obj [("key", Json.str s)])]
  | none => []

/-- `omitempty` rendering of a `{"name": ...}` sub-object pointer field:
dropped when nil. -/
def nameObjField (k : String) (v : Option String) : List (String × Json) :=
  match v with
  | some s => [(k, Json.obj [("name", Json.str s)])]
  | none => []

/-- `omitempty` rendering of the labels slice: dropped when nil/empty. -/
def labelsField (ls : List String) : List (String × Json) :=
  if ls = [] then [] else [("labels", Json.arr (ls.map Json.str))]

/-- `encoding/json` rendering of `JiraIssueFields` as a key/value map, per
the struct tags: every field is `omitempty`, so nil pointers, empty strings
and nil/empty slices are dropped; keys appear in struct-field order. -/
def jiraIssueFieldsJson (f : JiraIssueFields) : List (String × Json) :=
  keyObjField "project" (f.project.map (fun p => p.key)) ++
  nameObjField "issuetype" (f.issueType.map (fun t => t.name)) ++
  strField "summary" f.summary ++
  strField "description" f.description ++
  labelsField f.labels ++
  nameObjField "priority" (f.priority.map (fun p => p.name)) ++
  nameObjField "assignee" (f.assignee.map (fun a => a.name)) ++
  nameObjField "reporter" (f.reporter.map (fun r => r.name))

/-- Modelled from the spec: `common.InterfaceToMap` (generic struct→map
conversion via JSON round-trip; not under src/) — on an already-decoded
value it succeeds exactly on JSON objects, yielding their key/value map. -/
def interfaceToMap (j : Json) : Except String (List (String × Json)) :=
  match j with
  | Json.obj kvs => Except.ok kvs
  | _ => Except.error "cannot convert to map"

/-- One custom-field write `value[k] = v` of the merge loop. -/
def setKeyStep (acc : List (String × Json)) (kv : String × Json) : List (String × Json) :=
  setKey acc kv.1 kv.2

/-- `jsonJiraMarshal`: convert the issue to a map; when custom fields are
given, overwrite keys of the nested `fields` map with the custom-field
entries (Go map writes, one per custom-field entry) and reinstall the map;
the result is the value `json.Marshal` serializes. -/
def jsonJiraMarshal (issue : Json) (cf : List (String × Json)) : Except String Json :=
  match interfaceToMap issue with
  | Except.error e => Except.error e
  | Except.ok m =>
    if cf.length > 0 then
      match (match lookupKey m "fields" with
             | some fj => interfaceToMap fj
             | none => Except.error "cannot convert to map") with
      | Except.error e => Except.error e
      | Except.ok value =>
        let merged := cf.foldl setKeyStep value
        Except.ok (Json.obj (setKey m "fields" (Json.obj merged)))
    else Except.ok (Json.obj m)

/-- The `JiraIssueFields` value built by `CustomIssueCreate`: project and
issuetype always set, priority/assignee/reporter only when the option is
non-empty, labels passed through. -/
def customIssueCreateFields (io : JiraIssueOptions) (co : JiraIssueCreateOptions) : JiraIssueFields :=
  { project := some { key := co.projectKey }
    issueType := some { name := co.issueType }
    summary := io.summary
    description := io.description
    labels := io.labels
    priority := if ¬ isEmptyStr co.priority then some { name := co.priority } else none
    assignee := if ¬ isEmptyStr co.assignee then some { name := co.assignee } else none
    reporter := if ¬ isEmptyStr co.reporter then some { name := co.reporter } else none }

/-- The `JiraIssueFields` value built by `CustomIssueUpdate`: only summary,
description, and — when at least one label is non-empty — the labels list. -/
def customIssueUpdateFields (io : JiraIssueOptions) : JiraIssueFields :=
  { project := none
    issueType := none
    summary := io.summary
    description := io.description
    labels :=
      if io.labels.length > 0 then
        if io.labels.any (fun v => !(isEmptyStr v)) then io.labels else []
      else []
    priority := none
    assignee := none
    reporter := none }

/-- The serialized-body value of `CustomIssueCreate` (before HTTP), given the
decoded custom-field map `cf` (content resolution of the custom-fields file
is external). -/
def customIssueCreateBody (io : JiraIssueOptions) (co : JiraIssueCreateOptions)
    (cf : List (String × Json)) : Except String Json :=
  jsonJiraMarshal
    (Json.obj [("fields", Json.obj (jiraIssueFieldsJson (customIssueCreateFields io co)))]) cf

/-- The serialized-body value of `CustomIssueUpdate` (before HTTP). -/
def customIssueUpdateBody (io : JiraIssueOptions) (cf : List (String × Json)) :
    Except String Json :=
  jsonJiraMarshal
    (Json.obj [("fields", Json.obj (jiraIssueFieldsJson (customIssueUpdateFields io)))]) cf

/-- One outgoing HTTP request.  `urlPath` is the path component of the
request URL (`url.Parse` of the base URL is Go stdlib; scheme and host are
carried through unchanged and elided; `basePath` below is the parsed base
URL's path). -/
structure Request where
  method : String
  urlPath : String
  rawQuery : String
  contentType : String
  auth : String
  body : Option String

/-- The request of `CustomIssueCreate` (when body marshalling succeeds). -/
def createRequest (basePath : String) (opts : JiraOptions) (io : JiraIssueOptions)
    (co : JiraIssueCreateOptions) (cf : List (String × Json)) : Except String Request :=
  match customIssueCreateBody io co cf with
  | Except.error e => Except.error e
  | Except.ok j => Except.ok
      { method := "POST"
        urlPath := pathJoin basePath "/rest/api/2/issue"
        rawQuery := ""
        contentType := "application/json"
        auth := getAuth opts
        body := some (serializeJson j) }

/-- The request of `CustomIssueUpdate`. -/
def updateRequest (basePath : String) (opts : JiraOptions) (io : JiraIssueOptions)
    (cf : List (String × Json)) : Except String Request :=
  match customIssueUpdateBody io cf with
  | Except.error e => Except.error e
  | Except.ok j => Except.ok
      { method := "PUT"
        urlPath := pathJoin basePath ("/rest/api/2/issue/" ++ io.idOrKey)
        rawQuery := ""
        contentType := "application/json"
        auth := getAuth opts
        body := some (serializeJson j) }

/-- The request of `CustomIssueAddComment`. -/
def addCommentRequest (basePath : String) (opts : JiraOptions) (io : JiraIssueOptions)
    (commentBody : String) : Request :=
  { method := "POST"
    urlPath := pathJoin basePath ("/rest/api/2/issue/" ++ io.idOrKey ++ "/comment")
    rawQuery := ""
    contentType := "application/json"
    auth := getAuth opts
    body := some (serializeJson (Json.obj [("body", Json.str commentBody)])) }

/-- The header map of `CustomIssueAddAttachment` (multipart body elided: the
boundary string is generated by `mime/multipart`). -/
def addAttachmentHeaders (opts : JiraOptions) (formContentType : String) :
    List (String × String) :=
  [("Content-type", formContentType),
   ("Authorization", getAuth opts),
   ("X-Atlassian-Token", "no-check")]

/-- The request of `CustomIssueChangeTransitions`. -/
def transitionsRequest (basePath : String) (opts : JiraOptions) (io : JiraIssueOptions) :
    Request :=
  { method := "POST"
    urlPath := pathJoin basePath ("/rest/api/2/issue/" ++ io.idOrKey ++ "/transitions")
    rawQuery := ""
    contentType := "application/json"
    auth := getAuth opts
    body := some (serializeJson (Json.obj [("transition", Json.obj [("id", Json.str io.status)])])) }

/-- `CustomIssueChangeTransitions`, given the outcome of the one POST
(`common.HttpPostRawOutCode` returns response body bytes and status code, or
an error).  On success only the status code is kept, wrapped as the
serialization of `OutputCode` (per the spec, `common.JsonMarshal` is plain
compact JSON marshalling; the helper is not under src/). -/
def customIssueChangeTransitions (basePath : String) (opts : JiraOptions)
    (io : JiraIssueOptions) (resp : Except String (List Nat × Int)) :
    Request × Except String String :=
  (transitionsRequest basePath opts io,
   match resp with
   | Except.error e => Except.error e
   | Except.ok (_body, c) => Except.ok (serializeJson (Json.obj [("code", Json.num c)])))

/-- The request of `CustomIssueSearch`: the three query parameters are added
to a `url.Values` and encoded (sorted by key, query-escaped). -/
def searchRequest (basePath : String) (opts : JiraOptions) (so : JiraIssueSearchOptions) :
    Request :=
  { method := "GET"
    urlPath := pathJoin basePath "/rest/api/2/search"
    rawQuery := urlValuesEncode
      [("jql", so.searchPattern), ("maxResults", toString so.maxResults),
       ("validateQuery", "strict")]
    contentType := "application/json"
    auth := getAuth opts
    body := none }

/-- `CustomIssueSearch`, given the outcome of the one GET: the transport's
bytes are returned unmodified. -/
def customIssueSearch (basePath : String) (opts : JiraOptions) (so : JiraIssueSearchOptions)
    (resp : Except String (List Nat)) : Request × Except String (List Nat) :=
  (searchRequest basePath opts so, resp)

/-- Outcome of one `common.HttpGetRaw` + `json.Unmarshal` round trip for the
assets search: transport error, undecodable bytes, or the decoded value (the
raw bytes themselves are elided — a byte response stands for its decode
outcome). -/
inductive FetchResult where
  | httpError (e : String)
  | badJson (e : String)
  | decoded (j : Json)

/-- Outcome of a Go computation that may return an error value or panic
(a failed type assertion is a panic, not an error). -/
inductive GoResult (α : Type) where
  | ok (a : α)
  | err (e : String)
  | panicked (msg : String)

/-- `assets.(map[string]interface{})`: panics unless the value is an object. -/
def goAssertObj (j : Json) : GoResult (List (String × Json)) :=
  match j with
  | Json.obj kvs => GoResult.ok kvs
  | _ => GoResult.panicked "interface conversion: interface is not map[string]interface \x7b\x7d"

/-- `m[k].([]interface{})`: panics unless the key is present with an array. -/
def goAssertArr (v : Option Json) : GoResult (List Json) :=
  match v with
  | some (Json.arr xs) => GoResult.ok xs
  | _ => GoResult.panicked "interface conversion: interface is not []interface \x7b\x7d"

/-- `m[k].(float64)`: panics unless the key is present with a number. -/
def goAssertNum (v : Option Json) : GoResult Int :=
  match v with
  | some (Json.num n) => GoResult.ok n
  | _ => GoResult.panicked "interface conversion: interface is not float64"

/-- The base query of `AssetsCustomSearch`. -/
def assetsParams (aso : JiraAssetsSearchOptions) : List (String × String) :=
  [("qlQuery", aso.searchPattern), ("resultPerPage", toString aso.resultPerPage)]

/-- One GET of `AssetsCustomSearch` with the given query parameters. -/
def assetsRequest (basePath auth : String) (params : List (String × String)) : Request :=
  { method := "GET"
    urlPath := pathJoin basePath "/rest/insight/1.0/aql/objects"
    rawQuery := urlValuesEncode params
    contentType := "application/json"
    auth := auth
    body := none }

/-- The page loop of `AssetsCustomSearch` (`for i := 2; i <= int(pageSize); i++`),
given the list of remaining page indices.  Each iteration does
`params.Set("page", i)` — since `Set` replaces the previous value, setting on
the original base params is the same map — GETs, decodes, extracts
`objectEntries` by type assertion and appends.  Returns the GETs issued and
the accumulated entries (or the first error / panic). -/
def assetsLoop (fetch : Request → FetchResult) (basePath auth : String)
    (params : List (String × String)) :
    List Nat → List Json → List Request × GoResult (List Json)
  | [], acc => ([], GoResult.ok acc)
  | i :: rest, acc =>
    let req := assetsRequest basePath auth (valuesSet params "page" (toString i))
    match fetch req with
    | FetchResult.httpError e => ([req], GoResult.err e)
    | FetchResult.badJson e => ([req], GoResult.err e)
    | FetchResult.decoded j =>
      match goAssertObj j with
      | GoResult.err e => ([req], GoResult.err e)
      | GoResult.panicked msg => ([req], GoResult.panicked msg)
      | GoResult.ok mp =>
        match goAssertArr (lookupKey mp "objectEntries") with
        | GoResult.err e => ([req], GoResult.err e)
        | GoResult.panicked msg => ([req], GoResult.panicked msg)
        | GoResult.ok es =>
          let next := assetsLoop fetch basePath auth params rest (acc ++ es)
          (req :: next.1, next.2)

/-- `AssetsCustomSearch`: GET page one, decode, extract `objectEntries`,
`objectTypeAttributes` and `pageSize` by type assertion; when `pageSize > 1`
fetch pages `2..int(pageSize)` and concatenate their entries; compose the
result object from all entries and page one's attributes (a Go map literal,
serialized with sorted keys).  Returns the GETs issued and the outcome. -/
def assetsCustomSearch (basePath : String) (opts : JiraOptions)
    (aso : JiraAssetsSearchOptions) (fetch : Request → FetchResult) :
    List Request × GoResult Json :=
  let params := assetsParams aso
  let req1 := assetsRequest basePath (getAuth opts) params
  match fetch req1 with
  | FetchResult.httpError e => ([req1], GoResult.err e)
  | FetchResult.badJson e => ([req1], GoResult.err e)
  | FetchResult.decoded j =>
    match goAssertObj j with
    | GoResult.err e => ([req1], GoResult.err e)
    | GoResult.panicked msg => ([req1], GoResult.panicked msg)
    | GoResult.ok mp =>
      match goAssertArr (lookupKey mp "objectEntries") with
      | GoResult.err e => ([req1], GoResult.err e)
      | GoResult.panicked msg => ([req1], GoResult.panicked msg)
      | GoResult.ok assetsObj =>
        match goAssertArr (lookupKey mp "objectTypeAttributes") with
        | GoResult.err e => ([req1], GoResult.err e)
        | GoResult.panicked msg => ([req1], GoResult.panicked msg)
        | GoResult.ok objAttr =>
          match goAssertNum (lookupKey mp "pageSize") with
          | GoResult.err e => ([req1], GoResult.err e)
          | GoResult.panicked msg => ([req1], GoResult.panicked msg)
          | GoResult.ok pageSize =>
            if pageSize > 1 then
              let next := assetsLoop fetch basePath (getAuth opts) params
                (List.range' 2 (pageSize.toNat - 1)) assetsObj
              match next.2 with
              | GoResult.err e => (req1 :: next.1, GoResult.err e)
              | GoResult.panicked msg => (req1 :: next.1, GoResult.panicked msg)
              | GoResult.ok allObjs =>
                (req1 :: next.1,
                 GoResult.ok (Json.obj [("objects", Json.arr allObjs),
                                        ("attributes", Json.arr objAttr)]))
            else
              ([req1],
               GoResult.ok (Json.obj [("objects", Json.arr assetsObj),
                                      ("attributes", Json.arr objAttr)]))

/-- `NewJira`: builds the client struct and returns it with a nil error,
unconditionally (the HTTP client construction is external and cannot fail the
constructor; the model keeps the options the struct carries). -/
def newJira (options : JiraOptions) : Except String JiraOptions :=
  Except.ok options

/-- Process outcome of one CLI command handler. -/
inductive CmdOutcome where
  | aborted (msg : String)
  | errorReported (msg : String)
  | wroteOutput (bytes : List Nat)

/-- `jiraNew`: construct the Jira client, aborting the process
(`stdout.Panic`) when the constructor returns an error. -/
def jiraNew (options : JiraOptions) : Except String JiraOptions :=
  match newJira options with
  | Except.error e => Except.error e
  | Except.ok j => Except.ok j

/-- The `jira issue create` handler (`issueCreateCmd.Run`), given the
content-resolution outcome for the description (`utils.Content`, external)
and the client-call outcome (HTTP, external).  Content or construction
failure aborts via `stdout.Panic`; a client-call error goes to the error
stream and the handler returns without output. -/
def issueCreateRun (opts : JiraOptions) (descContent : Except String String)
    (callResult : Except String (List Nat)) : CmdOutcome :=
  match descContent with
  | Except.error e => CmdOutcome.aborted e
  | Except.ok _ =>
    match jiraNew opts with
    | Except.error e => CmdOutcome.aborted e
    | Except.ok _ =>
      match callResult with
      | Except.error e => CmdOutcome.errorReported e
      | Except.ok bytes => CmdOutcome.wroteOutput bytes

/-- `graylogNew`: resolve the query option's content (abort on failure), then
construct the Graylog client (`vendors.NewGraylog` is not under src/; its
result is a parameter), aborting with "No graylog" when it is nil. -/
def graylogNew (queryContent : Except String String) (newGraylog : Option Unit) :
    Except String Unit :=
  match queryContent with
  | Except.error e => Except.error e
  | Except.ok _ =>
    match newGraylog with
    | none => Except.error "No graylog"
    | some g => Except.ok g

/-- The `graylog logs` handler (`logs` command `Run`): setup failures abort,
a `Logs()` error is reported and the handler returns without output. -/
def graylogLogsRun (queryContent : Except String String) (newGraylog : Option Unit)
    (logsResult : Except String (List Nat)) : CmdOutcome :=
  match graylogNew queryContent newGraylog with
  | Except.error e => CmdOutcome.aborted e
  | Except.ok _ =>
    match logsResult with
    | Except.error e => CmdOutcome.errorReported e
    | Except.ok bytes => CmdOutcome.wroteOutput bytes

/-- Modelled from the spec: `envGet` (cmd package, not under src/) on a
string option — the value is the environment variable's value when set,
else the hard-coded default. -/
def envGetStr (env : String → Option String) (k d : String) : String :=
  (env k).getD d

/-- Modelled from the spec: `envGet` on an int option. -/
def envGetInt (env : String → Option String) (k : String) (d : Int) : Int :=
  ((env k).bind (fun s => s.toInt?)).getD d

/-- Modelled from the spec: `envGet` on a bool option. -/
def envGetBool (env : String → Option String) (k : String) (d : Bool) : Bool :=
  ((env k).bind (fun s =>
    if s = "true" then some true else if s = "false" then some false else none)).getD d

/-- `vendors.GraylogOptions` (the Go fields `From`/`To` are `fromTime`/
`toTime` here: `from` is a Lean keyword). -/
structure GraylogOptions where
  url : String
  timeout : Int
  insecure : Bool
  user : String
  password : String
  streams : String
  query : String
  rangeType : String
  fromTime : String
  toTime : String
  sort : String
  limit : Int
  range : String
  output : String
  outputQuery : String

/-- The package-level `graylogOptions` value (cmd/graylog.go lines 10–26):
each field seeded by `envGet` from the environment.  The seeding variable of
`OutputQuery` is `GRAYLOG_OOUTPUT_QUERY`, exactly as written in the source. -/
def graylogOptionsInitial (env : String → Option String) : GraylogOptions :=
  { url := envGetStr env "GRAYLOG_URL" ""
    timeout := envGetInt env "GRAYLOG_TIMEOUT" 30
    insecure := envGetBool env "GRAYLOG_INSECURE" false
    user := envGetStr env "GRAYLOG_USER" ""
    password := envGetStr env "GRAYLOG_PASSWORD" ""
    streams := envGetStr env "GRAYLOG_STREAMS" ""
    query := envGetStr env "GRAYLOG_QUERY" ""
    rangeType := envGetStr env "GRAYLOG_RANGE_TYPE" "absolute"
    fromTime := envGetStr env "GRAYLOG_FROM" ""
    toTime := envGetStr env "GRAYLOG_TO" ""
    sort := envGetStr env "GRAYLOG_SORT" ""
    limit := envGetInt env "GRAYLOG_LIMIT" 100
    range := envGetStr env "GRAYLOG_RANGE" ""
    output := envGetStr env "GRAYLOG_OUTPUT" ""
    outputQuery := envGetStr env "GRAYLOG_OOUTPUT_QUERY" "" }

/-- The flag declarations of `NewGraylogCommand` (lines 51–64): flag name ↦
flag default (the current option-field value), in declaration order; int and
bool defaults rendered as strings.  The `Range` field has no flag. -/
def graylogFlagDefaults (o : GraylogOptions) : List (String × String) :=
  [("graylog-url", o.url),
   ("graylog-timeout", toString o.timeout),
   ("graylog-insecure", toString o.insecure),
   ("graylog-user", o.user),
   ("graylog-password", o.password),
   ("graylog-streams", o.streams),
   ("graylog-query", o.query),
   ("graylog-range-type", o.rangeType),
   ("graylog-sort", o.sort),
   ("graylog-limit", toString o.limit),
   ("graylog-from", o.fromTime),
   ("graylog-to", o.toTime),
   ("graylog-output", o.output),
   ("graylog-output-query", o.outputQuery)]

/-- Lookup in a string/string association list (first binding). -/
def lookupFlag (kvs : List (String × String)) (k : String) : Option String :=
  match kvs with
  | [] => none
  | (k', v) :: rest => if k' = k then some v else lookupFlag rest k

/-- Lookup of a key inside the `fields` object of a serialized-body value. -/
def bodyFieldsLookup (j : Json) (k : String) : Option Json :=
  match j with
  | Json.obj m =>
    match lookupKey m "fields" with
    | some (Json.obj f) => lookupKey f k
    | _ => none
  | _ => none

/-- `bodyFieldsLookup` through the `Except` of body marshalling. -/
def bodyFieldsLookupE (r : Except String Json) (k : String) : Option Json :=
  match r with
  | Except.ok j => bodyFieldsLookup j k
  | Except.error _ => none

/-- A decoded assets-page response of the exact shape `AssetsCustomSearch`
assumes: a JSON object carrying `objectEntries` and `objectTypeAttributes`
as arrays and `pageSize` as a number. -/
def WellShapedAssets (j : Json) : Prop :=
  ∃ kvs es attrs n, j = Json.obj kvs ∧
    lookupKey kvs "objectEntries" = some (Json.arr es) ∧
    lookupKey kvs "objectTypeAttributes" = some (Json.arr attrs) ∧
    lookupKey kvs "pageSize" = some (Json.num n)

/-! Helper lemmas about map lookup, the custom-field merge, and the
`omitempty` field rendering. -/

theorem lookupKey_append (l₁ l₂ : List (String × Json)) (k : String) :
    lookupKey (l₁ ++ l₂) k =
      (match lookupKey l₁ k with
       | some v => some v
       | none => lookupKey l₂ k) := by
  induction l₁ with
  | nil => simp [lookupKey]
  | cons h t ih =>
    simp only [List.cons_append, lookupKey]
    split <;> simp [ih]

theorem lookupKey_append_none (l₁ l₂ : List (String × Json)) (k : String)
    (h : lookupKey l₁ k = none) : lookupKey (l₁ ++ l₂) k = lookupKey l₂ k := by
  rw [lookupKey_append, h]

theorem lookupKey_setKey_self (m : List (String × Json)) (k : String) (v : Json) :
    lookupKey (setKey m k v) k = some v := by
  induction m with
  | nil => simp [setKey, lookupKey]
  | cons h t ih =>
    unfold setKey
    split <;> simp [lookupKey, ih]
    next heq => simp [heq]

theorem lookupKey_setKey_ne (m : List (String × Json)) (k : String) (v : Json)
    (k' : String) (h : k ≠ k') : lookupKey (setKey m k v) k' = lookupKey m k' := by
  induction m with
  | nil => simp [setKey, lookupKey, h]
  | cons hd t ih =>
    unfold setKey
    split <;> simp [lookupKey, ih]
    next heq => subst heq; simp [h]

theorem lookupKey_foldl_setKey_notmem (cf : List (String × Json))
    (m : List (String × Json)) (k : String) (h : k ∉ cf.map Prod.fst) :
    lookupKey (cf.foldl setKeyStep m) k = lookupKey m k := by
  induction cf generalizing m with
  | nil => simp
  | cons kv rest ih =>
    simp only [List.map_cons, List.mem_cons] at h
    push_neg at h
    rw [List.foldl_cons, ih _ h.2]
    exact lookupKey_setKey_ne _ _ _ _ (fun he => h.1 (he ▸ rfl))

theorem lookupKey_foldl_setKey_mem (cf : List (String × Json))
    (m : List (String × Json)) (k : String) (hnd : (cf.map Prod.fst).Nodup)
    (hk : k ∈ cf.map Prod.fst) :
    lookupKey (cf.foldl setKeyStep m) k = lookupKey cf k := by
  induction cf generalizing m with
  | nil => cases hk
  | cons kv rest ih =>
    rcases kv with ⟨k₀, v₀⟩
    simp only [List.map_cons, List.nodup_cons] at hnd
    simp only [List.map_cons, List.mem_cons] at hk
    rw [List.foldl_cons]
    by_cases hkk : k₀ = k
    · subst hkk
      rw [lookupKey_foldl_setKey_notmem _ _ _ hnd.1]
      have hself : lookupKey (setKeyStep m (k₀, v₀)) k₀ = some v₀ :=
        lookupKey_setKey_self m k₀ v₀
      rw [hself]
      simp [lookupKey]
    · have hk' : k ∈ rest.map Prod.fst := by
        rcases hk with h | h
        · exact absurd h.symm hkk
        · exact h
      rw [ih _ hnd.2 hk']
      simp [lookupKey, hkk]

theorem jsonJiraMarshal_nil_cf (F : List (String × Json)) :
    jsonJiraMarshal (Json.obj [("fields", Json.obj F)]) [] =
      Except.ok (Json.obj [("fields", Json.obj F)]) := rfl

theorem jsonJiraMarshal_cf (F : List (String × Json)) (cf : List (String × Json))
    (h : cf ≠ []) :
    jsonJiraMarshal (Json.obj [("fields", Json.obj F)]) cf =
      Except.ok (Json.obj [("fields", Json.obj (cf.foldl setKeyStep F))]) := by
  unfold jsonJiraMarshal interfaceToMap
  have hlen : 0 < cf.length := List.length_pos.mpr h
  simp [lookupKey, setKey, hlen]

theorem strField_lookup_ne (k s k' : String) (h : k ≠ k') :
    lookupKey (strField k s) k' = none := by
  unfold strField
  split <;> simp [lookupKey, h]

theorem keyObjField_lookup_ne (k : String) (v : Option String) (k' : String) (h : k ≠ k') :
    lookupKey (keyObjField k v) k' = none := by
  cases v <;> simp [keyObjField, lookupKey, h]

theorem nameObjField_lookup_ne (k : String) (v : Option String) (k' : String) (h : k ≠ k') :
    lookupKey (nameObjField k v) k' = none := by
  cases v <;> simp [nameObjField, lookupKey, h]

theorem labelsField_lookup_ne (ls : List String) (k' : String) (h : ("labels" : String) ≠ k') :
    lookupKey (labelsField ls) k' = none := by
  unfold labelsField
  split <;> simp [lookupKey, h]

theorem lookup_fieldsJson_priority (f : JiraIssueFields) :
    lookupKey (jiraIssueFieldsJson f) "priority" =
      f.priority.map (fun p => Json.obj [("name", Json.str p.name)]) := by
  unfold jiraIssueFieldsJson
  simp only [List.append_assoc]
  rw [lookupKey_append_none _ _ _ (keyObjField_lookup_ne _ _ _ (by decide)),
      lookupKey_append_none _ _ _ (nameObjField_lookup_ne _ _ _ (by decide)),
      lookupKey_append_none _ _ _ (strField_lookup_ne _ _ _ (by decide)),
      lookupKey_append_none _ _ _ (strField_lookup_ne _ _ _ (by decide)),
      lookupKey_append_none _ _ _ (labelsField_lookup_ne _ _ (by decide))]
  cases f.priority with
  | none =>
    have h1 : nameObjField "priority"
        (Option.map (fun p => p.name) (none : Option JiraIssuePriority)) = [] := rfl
    rw [h1, List.nil_append,
        lookupKey_append_none _ _ _ (nameObjField_lookup_ne _ _ _ (by decide))]
    exact nameObjField_lookup_ne _ _ _ (by decide)
  | some p =>
    have h1 : nameObjField "priority" (Option.map (fun q => q.name) (some p)) =
        [("priority", Json.obj [("name", Json.str p.name)])] := rfl
    rw [h1]
    simp [lookupKey]

theorem lookup_fieldsJson_assignee (f : JiraIssueFields) :
    lookupKey (jiraIssueFieldsJson f) "assignee" =
      f.assignee.map (fun a => Json.obj [("name", Json.str a.name)]) := by
  unfold jiraIssueFieldsJson
  simp only [List.append_assoc]
  rw [lookupKey_append_none _ _ _ (keyObjField_lookup_ne _ _ _ (by decide)),
      lookupKey_append_none _ _ _ (nameObjField_lookup_ne _ _ _ (by decide)),
      lookupKey_append_none _ _ _ (strField_lookup_ne _ _ _ (by decide)),
      lookupKey_append_none _ _ _ (strField_lookup_ne _ _ _ (by decide)),
      lookupKey_append_none _ _ _ (labelsField_lookup_ne _ _ (by decide)),
      lookupKey_append_none _ _ _ (nameObjField_lookup_ne _ _ _ (by decide))]
  cases f.assignee with
  | none =>
    have h1 : nameObjField "assignee"
        (Option.map (fun a => a.name) (none : Option JiraIssueAssignee)) = [] := rfl
    rw [h1, List.nil_append]
    exact nameObjField_lookup_ne _ _ _ (by decide)
  | some a =>
    have h1 : nameObjField "assignee" (Option.map (fun q => q.name) (some a)) =
        [("assignee", Json.obj [("name", Json.str a.name)])] := rfl
    rw [h1]
    simp [lookupKey]

theorem lookup_fieldsJson_reporter (f : JiraIssueFields) :
    lookupKey (jiraIssueFieldsJson f) "reporter" =
      f.reporter.map (fun r => Json.obj [("name", Json.str r.name)]) := by
  unfold jiraIssueFieldsJson
  simp only [List.append_assoc]
  rw [lookupKey_append_none _ _ _ (keyObjField_lookup_ne _ _ _ (by decide)),
      lookupKey_append_none _ _ _ (nameObjField_lookup_ne _ _ _ (by decide)),
      lookupKey_append_none _ _ _ (strField_lookup_ne _ _ _ (by decide)),
      lookupKey_append_none _ _ _ (strField_lookup_ne _ _ _ (by decide)),
      lookupKey_append_none _ _ _ (labelsField_lookup_ne _ _ (by decide)),
      lookupKey_append_none _ _ _ (nameObjField_lookup_ne _ _ _ (by decide)),
      lookupKey_append_none _ _ _ (nameObjField_lookup_ne _ _ _ (by decide))]
  cases f.reporter with
  | none =>
    have h1 : nameObjField "reporter"
        (Option.map (fun r => r.name) (none : Option JiraIssueReporter)) = [] := rfl
    rw [h1]
    simp [lookupKey]
  | some r =>
    have h1 : nameObjField "reporter" (Option.map (fun q => q.name) (some r)) =
        [("reporter", Json.obj [("name", Json.str r.name)])] := rfl
    rw [h1]
    simp [lookupKey]

theorem lookup_fieldsJson_labels (f : JiraIssueFields) :
    lookupKey (jiraIssueFieldsJson f) "labels" =
      (if f.labels = [] then none else some (Json.arr (f.labels.map Json.str))) := by
  unfold jiraIssueFieldsJson
  simp only [List.append_assoc]
  rw [lookupKey_append_none _ _ _ (keyObjField_lookup_ne _ _ _ (by decide)),
      lookupKey_append_none _ _ _ (nameObjField_lookup_ne _ _ _ (by decide)),
      lookupKey_append_none _ _ _ (strField_lookup_ne _ _ _ (by decide)),
      lookupKey_append_none _ _ _ (strField_lookup_ne _ _ _ (by decide))]
  unfold labelsField
  split
  · rw [List.nil_append,
        lookupKey_append_none _ _ _ (nameObjField_lookup_ne _ _ _ (by decide)),
        lookupKey_append_none _ _ _ (nameObjField_lookup_ne _ _ _ (by decide))]
    exact nameObjField_lookup_ne _ _ _ (by decide)
  · simp [lookupKey]

theorem assetsLoop_ok (fetch : Request → FetchResult) (bp auth : String)
    (params : List (String × String)) (pageJson : Nat → Json)
    (pageEntries : Nat → List Json) (idxs : List Nat) :
    ∀ acc : List Json,
      (∀ i ∈ idxs, fetch (assetsRequest bp auth (valuesSet params "page" (toString i))) =
         FetchResult.decoded (pageJson i)) →
      (∀ i ∈ idxs, ∃ pkvs, pageJson i = Json.obj pkvs ∧
         lookupKey pkvs "objectEntries" = some (Json.arr (pageEntries i))) →
      assetsLoop fetch bp auth params idxs acc =
        (idxs.map (fun i => assetsRequest bp auth (valuesSet params "page" (toString i))),
         GoResult.ok (acc ++ (idxs.map pageEntries).flatten)) := by
  induction idxs with
  | nil => intro acc _ _; simp [assetsLoop]
  | cons i rest ih =>
    intro acc hf hs
    obtain ⟨pkvs, hpj, hpe⟩ := hs i (List.mem_cons_self _ _)
    have hfi := hf i (List.mem_cons_self _ _)
    rw [hpj] at hfi
    simp only [assetsLoop]
    rw [hfi]
    simp only [goAssertObj]
    rw [hpe]
    simp only [goAssertArr]
    rw [ih (acc ++ pageEntries i)
          (fun j hj => hf j (List.mem_cons_of_mem _ hj))
          (fun j hj => hs j (List.mem_cons_of_mem _ hj))]
    simp [List.append_assoc]

theorem assetsLoop_no_panic (fetch : Request → FetchResult) (bp auth : String)
    (params : List (String × String))
    (hw : ∀ req j, fetch req = FetchResult.decoded j → WellShapedAssets j) :
    ∀ (idxs : List Nat) (acc : List Json) (msg : String),
      (assetsLoop fetch bp auth params idxs acc).2 ≠ GoResult.panicked msg := by
  intro idxs
  induction idxs with
  | nil => intro acc msg; simp [assetsLoop]
  | cons i rest ih =>
    intro acc msg
    simp only [assetsLoop]
    cases hfr : fetch (assetsRequest bp auth (valuesSet params "page" (toString i))) with
    | httpError e => simp
    | badJson e => simp
    | decoded j =>
      obtain ⟨kvs, es, attrs, n, rfl, hoe, _, _⟩ := hw _ _ hfr
      simp only [goAssertObj]
      rw [hoe]
      simp only [goAssertArr]
      exact ih (acc ++ es) msg

theorem assetsLoop_auth (fetch : Request → FetchResult) (bp auth : String)
    (params : List (String × String)) :
    ∀ (idxs : List Nat) (acc : List Json),
      ((assetsLoop fetch bp auth params idxs acc).1.all (fun r => r.auth == auth)) = true := by
  intro idxs
  induction idxs with
  | nil => intro acc; simp [assetsLoop]
  | cons i rest ih =>
    intro acc
    simp only [assetsLoop]
    cases hfr : fetch (assetsRequest bp auth (valuesSet params "page" (toString i))) with
    | httpError e => simp [assetsRequest]
    | badJson e => simp [assetsRequest]
    | decoded j =>
      cases hobj : goAssertObj j with
      | err e => simp [hobj, assetsRequest]
      | panicked m => simp [hobj, assetsRequest]
      | ok mp =>
        cases harr : goAssertArr (lookupKey mp "objectEntries") with
        | err e => simp [hobj, harr, assetsRequest]
        | panicked m => simp [hobj, harr, assetsRequest]
        | ok es => simp [hobj, harr, assetsRequest, ih]

/-! Sample concrete values used by witnesses. -/

def sampleJiraOptions : JiraOptions :=
  { url := "https://jira.example.com", timeout := 30, insecure := false,
    user := "bob", password := "pw", accessToken := "" }

def sampleAssetsOptions : JiraAssetsSearchOptions :=
  { searchPattern := "objectType = host", resultPerPage := 1 }

/-! Claim theorems. -/

/-- C1: for every asset search whose first page declares `pageSize = N` with
`N > 1`, `AssetsCustomSearch` issues exactly `N - 1` additional GETs for
pages `2..N` in increasing order, and the returned JSON object's `objects`
list is the concatenation of all `N` pages' `objectEntries` lists in page
order while `attributes` is page 1's `objectTypeAttributes` only. -/
theorem c1_assets_multi_page_search
    (basePath : String) (opts : JiraOptions) (aso : JiraAssetsSearchOptions)
    (fetch : Request → FetchResult) (kvs : List (String × Json))
    (es1 attrs : List Json) (N : Nat) (pageJson : Nat → Json) (pageEntries : Nat → List Json)
    (h1 : fetch (assetsRequest basePath (getAuth opts) (assetsParams aso)) =
            FetchResult.decoded (Json.obj kvs))
    (h2 : lookupKey kvs "objectEntries" = some (Json.arr es1))
    (h3 : lookupKey kvs "objectTypeAttributes" = some (Json.arr attrs))
    (h4 : lookupKey kvs "pageSize" = some (Json.num (N : Int)))
    (hN : 1 < N)
    (hf : ∀ i, 2 ≤ i → i ≤ N →
            fetch (assetsRequest basePath (getAuth opts)
              (valuesSet (assetsParams aso) "page" (toString i))) =
              FetchResult.decoded (pageJson i))
    (hs : ∀ i, 2 ≤ i → i ≤ N → ∃ pkvs, pageJson i = Json.obj pkvs ∧
            lookupKey pkvs "objectEntries" = some (Json.arr (pageEntries i))) :
    assetsCustomSearch basePath opts aso fetch =
      (assetsRequest basePath (getAuth opts) (assetsParams aso) ::
         (List.range' 2 (N - 1)).map
           (fun i => assetsRequest basePath (getAuth opts)
             (valuesSet (assetsParams aso) "page" (toString i))),
       GoResult.ok (Json.obj
         [("objects", Json.arr (es1 ++ ((List.range' 2 (N - 1)).map pageEntries).flatten)),
          ("attributes", Json.arr attrs)])) := by
  have hf' : ∀ i ∈ List.range' 2 (N - 1),
      fetch (assetsRequest basePath (getAuth opts)
        (valuesSet (assetsParams aso) "page" (toString i))) =
        FetchResult.decoded (pageJson i) := by
    intro i hi
    rw [List.mem_range'_1] at hi
    exact hf i hi.1 (by omega)
  have hs' : ∀ i ∈ List.range' 2 (N - 1), ∃ pkvs, pageJson i = Json.obj pkvs ∧
      lookupKey pkvs "objectEntries" = some (Json.arr (pageEntries i)) := by
    intro i hi
    rw [List.mem_range'_1] at hi
    exact hs i hi.1 (by omega)
  have hN' : (1 : Int) < (N : Int) := by exact_mod_cast hN
  simp only [assetsCustomSearch]
  rw [h1]
  simp only [goAssertObj]
  rw [h2]
  simp only [goAssertArr]
  rw [h3]
  simp only [goAssertArr]
  rw [h4]
  simp only [goAssertNum]
  rw [if_pos hN']
  rw [Int.toNat_natCast]
  rw [assetsLoop_ok fetch basePath (getAuth opts) (assetsParams aso) pageJson pageEntries
        (List.range' 2 (N - 1)) es1 hf' hs']

/-- C5: a syntactically valid JSON first-page response that is an object but
lacks the fixed key `objectEntries` makes `AssetsCustomSearch` end in a
runtime type-assertion panic (not an error return); and whenever every
decoded page response is a JSON object carrying `objectEntries`,
`objectTypeAttributes` and `pageSize` at the expected types, no panic
occurs. -/
theorem c5_assets_shape_panics :
    ((assetsCustomSearch "" sampleJiraOptions sampleAssetsOptions
        (fun _ => FetchResult.decoded (Json.obj []))).2 =
      GoResult.panicked "interface conversion: interface is not []interface \x7b\x7d") ∧
    (∀ (basePath : String) (opts : JiraOptions) (aso : JiraAssetsSearchOptions)
       (fetch : Request → FetchResult),
       (∀ req j, fetch req = FetchResult.decoded j → WellShapedAssets j) →
       ∀ msg, (assetsCustomSearch basePath opts aso fetch).2 ≠ GoResult.panicked msg) := by
  constructor
  · rfl
  · intro basePath opts aso fetch hw msg
    simp only [assetsCustomSearch]
    cases hfr : fetch (assetsRequest basePath (getAuth opts) (assetsParams aso)) with
    | httpError e => simp
    | badJson e => simp
    | decoded j =>
      obtain ⟨kvs, es, attrs, n, rfl, hoe, hoa, hps⟩ := hw _ _ hfr
      simp only [goAssertObj]
      rw [hoe]
      simp only [goAssertArr]
      rw [hoa]
      simp only [goAssertArr]
      rw [hps]
      simp only [goAssertNum]
      split
      · cases hl : (assetsLoop fetch basePath (getAuth opts) (assetsParams aso)
            (List.range' 2 (n.toNat - 1)) es).2 with
        | ok allObjs => simp [hl]
        | err e => simp [hl]
        | panicked m =>
          exact absurd hl
            (assetsLoop_no_panic fetch basePath (getAuth opts) (assetsParams aso) hw _ _ _)
      · simp

/-- A well-shaped single-page response used by the C5 witness. -/
def sampleGoodPage : Json :=
  Json.obj [("objectEntries", Json.arr []), ("objectTypeAttributes", Json.arr []),
            ("pageSize", Json.num 1)]

theorem c5_assets_shape_panics_witness :
    (assetsCustomSearch "" sampleJiraOptions sampleAssetsOptions
       (fun _ => FetchResult.decoded sampleGoodPage)).2 ≠
      GoResult.panicked "interface conversion" :=
  c5_assets_shape_panics.2 "" sampleJiraOptions sampleAssetsOptions _
    (fun req j h => by
      injection h with h2
      exact h2 ▸ ⟨_, [], [], 1, rfl, rfl, rfl, rfl⟩)
    "interface conversion"

theorem customIssueCreateBody_ok (io : JiraIssueOptions) (co : JiraIssueCreateOptions)
    (cf : List (String × Json)) : ∃ j, customIssueCreateBody io co cf = Except.ok j := by
  cases cf with
  | nil => exact ⟨_, jsonJiraMarshal_nil_cf _⟩
  | cons kv rest => exact ⟨_, jsonJiraMarshal_cf _ _ (by simp)⟩

theorem customIssueUpdateBody_ok (io : JiraIssueOptions)
    (cf : List (String × Json)) : ∃ j, customIssueUpdateBody io cf = Except.ok j := by
  cases cf with
  | nil => exact ⟨_, jsonJiraMarshal_nil_cf _⟩
  | cons kv rest => exact ⟨_, jsonJiraMarshal_cf _ _ (by simp)⟩

def sampleIssueOptions : JiraIssueOptions :=
  { idOrKey := "DEV-1", summary := "summary text", description := "desc",
    customFields := "", status := "", labels := ["ops"] }

def sampleCreateOptions : JiraIssueCreateOptions :=
  { projectKey := "DEV", issueType := "Task", priority := "", assignee := "", reporter := "" }

def sampleCustomFields : List (String × Json) :=
  [("summary", Json.str "overridden")]

/-- C2: for every issue payload and custom-field map, any key of the
custom-field map ends up in the final serialized body's `fields` object with
the custom-field map's value (so in particular the override wins on keys
present in both), for issue create and issue update alike. -/
theorem c2_custom_field_override (io : JiraIssueOptions) (co : JiraIssueCreateOptions)
    (cf : List (String × Json)) (k : String)
    (hnd : (cf.map Prod.fst).Nodup) (hk : k ∈ cf.map Prod.fst) :
    (∃ j, customIssueCreateBody io co cf = Except.ok j ∧
       bodyFieldsLookup j k = lookupKey cf k) ∧
    (∃ j, customIssueUpdateBody io cf = Except.ok j ∧
       bodyFieldsLookup j k = lookupKey cf k) := by
  have hne : cf ≠ [] := by rintro rfl; simp at hk
  constructor
  · refine ⟨_, jsonJiraMarshal_cf (jiraIssueFieldsJson (customIssueCreateFields io co)) cf hne, ?_⟩
    simp only [bodyFieldsLookup, lookupKey, if_pos]
    exact lookupKey_foldl_setKey_mem cf _ k hnd hk
  · refine ⟨_, jsonJiraMarshal_cf (jiraIssueFieldsJson (customIssueUpdateFields io)) cf hne, ?_⟩
    simp only [bodyFieldsLookup, lookupKey, if_pos]
    exact lookupKey_foldl_setKey_mem cf _ k hnd hk

theorem c2_custom_field_override_witness :
    ((sampleCustomFields.map Prod.fst).Nodup ∧
       "summary" ∈ sampleCustomFields.map Prod.fst) ∧
    ((∃ j, customIssueCreateBody sampleIssueOptions sampleCreateOptions sampleCustomFields =
          Except.ok j ∧ bodyFieldsLookup j "summary" = lookupKey sampleCustomFields "summary") ∧
     (∃ j, customIssueUpdateBody sampleIssueOptions sampleCustomFields = Except.ok j ∧
        bodyFieldsLookup j "summary" = lookupKey sampleCustomFields "summary")) :=
  ⟨⟨by decide, by decide⟩,
   c2_custom_field_override sampleIssueOptions sampleCreateOptions sampleCustomFields "summary"
     (by decide) (by decide)⟩

/-- C4 (amended): in the create body (absent custom-field overrides),
priority/assignee/reporter are present iff the corresponding create option is
non-empty, and labels iff the labels list is non-empty; in the update body
priority/assignee/reporter are never present, and labels is present iff the
labels list contains at least one non-empty label. -/
theorem c4_optional_fields_presence (io : JiraIssueOptions) (co : JiraIssueCreateOptions) :
    ((bodyFieldsLookupE (customIssueCreateBody io co []) "priority").isSome ↔ co.priority ≠ "") ∧
    ((bodyFieldsLookupE (customIssueCreateBody io co []) "assignee").isSome ↔ co.assignee ≠ "") ∧
    ((bodyFieldsLookupE (customIssueCreateBody io co []) "reporter").isSome ↔ co.reporter ≠ "") ∧
    ((bodyFieldsLookupE (customIssueCreateBody io co []) "labels").isSome ↔ io.labels ≠ []) ∧
    (bodyFieldsLookupE (customIssueUpdateBody io []) "priority" = none) ∧
    (bodyFieldsLookupE (customIssueUpdateBody io []) "assignee" = none) ∧
    (bodyFieldsLookupE (customIssueUpdateBody io []) "reporter" = none) ∧
    ((bodyFieldsLookupE (customIssueUpdateBody io []) "labels").isSome ↔
       ∃ l ∈ io.labels, l ≠ "") := by
  have hc : customIssueCreateBody io co [] = Except.ok
      (Json.obj [("fields", Json.obj (jiraIssueFieldsJson (customIssueCreateFields io co)))]) :=
    jsonJiraMarshal_nil_cf _
  have hu : customIssueUpdateBody io [] = Except.ok
      (Json.obj [("fields", Json.obj (jiraIssueFieldsJson (customIssueUpdateFields io)))]) :=
    jsonJiraMarshal_nil_cf _
  refine ⟨?_, ?_, ?_, ?_, ?_, ?_, ?_, ?_⟩
  · rw [hc]
    show (lookupKey (jiraIssueFieldsJson (customIssueCreateFields io co)) "priority").isSome ↔ _
    rw [lookup_fieldsJson_priority]
    by_cases hp : co.priority = "" <;> simp [customIssueCreateFields, isEmptyStr, hp]
  · rw [hc]
    show (lookupKey (jiraIssueFieldsJson (customIssueCreateFields io co)) "assignee").isSome ↔ _
    rw [lookup_fieldsJson_assignee]
    by_cases hp : co.assignee = "" <;> simp [customIssueCreateFields, isEmptyStr, hp]
  · rw [hc]
    show (lookupKey (jiraIssueFieldsJson (customIssueCreateFields io co)) "reporter").isSome ↔ _
    rw [lookup_fieldsJson_reporter]
    by_cases hp : co.reporter = "" <;> simp [customIssueCreateFields, isEmptyStr, hp]
  · rw [hc]
    show (lookupKey (jiraIssueFieldsJson (customIssueCreateFields io co)) "labels").isSome ↔ _
    rw [lookup_fieldsJson_labels]
    by_cases hl : io.labels = [] <;> simp [customIssueCreateFields, hl]
  · rw [hu]
    show lookupKey (jiraIssueFieldsJson (customIssueUpdateFields io)) "priority" = none
    rw [lookup_fieldsJson_priority]
    simp [customIssueUpdateFields]
  · rw [hu]
    show lookupKey (jiraIssueFieldsJson (customIssueUpdateFields io)) "assignee" = none
    rw [lookup_fieldsJson_assignee]
    simp [customIssueUpdateFields]
  · rw [hu]
    show lookupKey (jiraIssueFieldsJson (customIssueUpdateFields io)) "reporter" = none
    rw [lookup_fieldsJson_reporter]
    simp [customIssueUpdateFields]
  · rw [hu]
    show (lookupKey (jiraIssueFieldsJson (customIssueUpdateFields io)) "labels").isSome ↔ _
    rw [lookup_fieldsJson_labels]
    by_cases hlen : io.labels = []
    · simp [customIssueUpdateFields, hlen]
    · have hpos : 0 < io.labels.length := List.length_pos.mpr hlen
      by_cases hany : io.labels.any (fun v => !(isEmptyStr v)) = true
      · simp [customIssueUpdateFields, hpos, hany, hlen]
        rw [List.any_eq_true] at hany
        obtain ⟨l, hl, hne⟩ := hany
        exact ⟨l, hl, by simpa [isEmptyStr] using hne⟩
      · simp [customIssueUpdateFields, hpos, hany, hlen]
        intro l hl
        by_contra hne
        exact hany (List.any_eq_true.mpr ⟨l, hl, by simpa [isEmptyStr]⟩)

/-- Labels option exercising the update-labels flaw: a non-empty list whose
only element is the empty string (exactly what the CLI produces from an
unset `JIRA_ISSUE_LABELS`, since `strings.Split("", ",") = [""]`). -/
def c4IssueOptions : JiraIssueOptions :=
  { idOrKey := "DEV-2", summary := "s", description := "d",
    customFields := "", status := "", labels := [""] }

/-- C4 counterexample: for the update payload with the non-empty labels list
`[""]`, the serialized body carries no `labels` key, refuting "present iff
the labels option list is non-empty" as stated. -/
theorem c4_optional_fields_counterexample :
    c4IssueOptions.labels ≠ [] ∧
    bodyFieldsLookupE (customIssueUpdateBody c4IssueOptions []) "labels" = none := by
  exact ⟨by decide, rfl⟩

theorem assetsCustomSearch_auth (basePath : String) (opts : JiraOptions)
    (aso : JiraAssetsSearchOptions) (fetch : Request → FetchResult) :
    ((assetsCustomSearch basePath opts aso fetch).1.all
       (fun r => r.auth == getAuth opts)) = true := by
  have hauth : ∀ (N : Nat) (es : List Json),
      ((assetsLoop fetch basePath (getAuth opts) (assetsParams aso)
          (List.range' 2 N) es).1.all (fun r => r.auth == getAuth opts)) = true :=
    fun N es =>
      assetsLoop_auth fetch basePath (getAuth opts) (assetsParams aso) (List.range' 2 N) es
  simp only [assetsCustomSearch]
  repeat' split
  all_goals simp_all [assetsRequest]
  all_goals exact hauth _ _

/-- C3: the Authorization value is Basic over `user:password` when the user
is set, else Bearer over the access token when that is set, else empty; and
every modelled Jira client call carries exactly `getAuth` of its options. -/
theorem c3_auth_selection (opts : JiraOptions) (basePath : String)
    (io : JiraIssueOptions) (co : JiraIssueCreateOptions) (cf : List (String × Json))
    (so : JiraIssueSearchOptions) (aso : JiraAssetsSearchOptions)
    (fetch : Request → FetchResult) (commentBody formContentType : String) :
    (getAuth opts =
       if opts.user ≠ "" then
         "Basic " ++ base64Encode (stringToBytes (opts.user ++ ":" ++ opts.password))
       else if opts.accessToken ≠ "" then "Bearer " ++ opts.accessToken
       else "") ∧
    (∃ r, createRequest basePath opts io co cf = Except.ok r ∧ r.auth = getAuth opts) ∧
    (∃ r, updateRequest basePath opts io cf = Except.ok r ∧ r.auth = getAuth opts) ∧
    ((addCommentRequest basePath opts io commentBody).auth = getAuth opts) ∧
    (lookupFlag (addAttachmentHeaders opts formContentType) "Authorization" =
       some (getAuth opts)) ∧
    ((transitionsRequest basePath opts io).auth = getAuth opts) ∧
    ((searchRequest basePath opts so).auth = getAuth opts) ∧
    (((assetsCustomSearch basePath opts aso fetch).1.all
        (fun r => r.auth == getAuth opts)) = true) := by
  refine ⟨?_, ?_, ?_, rfl, rfl, rfl, rfl, assetsCustomSearch_auth basePath opts aso fetch⟩
  · by_cases hu : opts.user = "" <;> by_cases ht : opts.accessToken = "" <;>
      simp [getAuth, isEmptyStr, hu, ht]
  · obtain ⟨j, hj⟩ := customIssueCreateBody_ok io co cf
    refine ⟨{ method := "POST", urlPath := pathJoin basePath "/rest/api/2/issue",
              rawQuery := "", contentType := "application/json", auth := getAuth opts,
              body := some (serializeJson j) }, ?_, rfl⟩
    simp [createRequest, hj]
  · obtain ⟨j, hj⟩ := customIssueUpdateBody_ok io cf
    refine ⟨{ method := "PUT", urlPath := pathJoin basePath ("/rest/api/2/issue/" ++ io.idOrKey),
              rawQuery := "", contentType := "application/json", auth := getAuth opts,
              body := some (serializeJson j) }, ?_, rfl⟩
    simp [updateRequest, hj]

/-- C6: on a successful transition POST the response body is discarded and
the returned bytes are exactly the JSON object mapping `code` to the numeric
HTTP status; in particular a 204 response with no body yields
`\x7b"code":204\x7d` and no error. -/
theorem c6_transitions_code_wrapping (basePath : String) (opts : JiraOptions)
    (io : JiraIssueOptions) (body body' : List Nat) (c : Int) :
    ((customIssueChangeTransitions basePath opts io (Except.ok (body, c))).2 =
       Except.ok ("\x7b\"code\":" ++ toString c ++ "\x7d")) ∧
    ((customIssueChangeTransitions basePath opts io (Except.ok (body, c))).2 =
       (customIssueChangeTransitions basePath opts io (Except.ok (body', c))).2) ∧
    ((customIssueChangeTransitions basePath opts io (Except.ok ([], 204))).2 =
       Except.ok "\x7b\"code\":204\x7d") := by
  refine ⟨?_, rfl, ?_⟩
  · show Except.ok (serializeJson (Json.obj [("code", Json.num c)])) = _
    have h : serializeJson (Json.obj [("code", Json.num c)]) =
        "\x7b\"code\":" ++ toString c ++ "\x7d" := by
      show "\x7b" ++ ("\"" ++ jsonEscape "code" ++ "\":" ++ toString c) ++ "\x7d" = _
      have h2 : jsonEscape "code" = "code" := rfl
      rw [h2]
      simp [String.append_assoc]
      rw [← String.append_assoc]
      congr 1
    rw [h]
  · rfl

/-- C7: the issue search issues a single GET whose path is the base path
joined with `/rest/api/2/search` and whose query string is the encoding of
exactly `jql`, `maxResults` and `validateQuery=strict`; the concrete inputs
of the claim produce the claimed query string, and the response bytes are
returned unmodified. -/
theorem c7_issue_search_request (basePath : String) (opts : JiraOptions)
    (so : JiraIssueSearchOptions) (resp : Except String (List Nat)) :
    ((searchRequest basePath opts so).method = "GET") ∧
    ((searchRequest basePath opts so).urlPath = pathJoin basePath "/rest/api/2/search") ∧
    ((searchRequest basePath opts so).rawQuery =
       urlValuesEncode [("jql", so.searchPattern), ("maxResults", toString so.maxResults),
                        ("validateQuery", "strict")]) ∧
    ((searchRequest "" opts { searchPattern := "project=X", maxResults := 10 }).rawQuery =
       "jql=project%3DX&maxResults=10&validateQuery=strict") ∧
    ((searchRequest "" opts { searchPattern := "project=X", maxResults := 10 }).urlPath =
       "/rest/api/2/search") ∧
    ((customIssueSearch basePath opts so resp).2 = resp) ∧
    ((customIssueSearch basePath opts so resp).1 = searchRequest basePath opts so) :=
  ⟨rfl, rfl, rfl, by rfl, by rfl, rfl, rfl⟩

/-- C8: in every modelled command handler, a content-resolution failure or a
client-construction failure aborts the process, while an error returned by
the invoked client method is reported to the error stream and the handler
returns without crashing and without printing output. -/
theorem c8_error_tiers (e q e2 d : String) (ng : Option Unit)
    (lr : Except String (List Nat)) (opts : JiraOptions)
    (bytes : List Nat) (g : Unit) :
    (graylogLogsRun (Except.error e) ng lr = CmdOutcome.aborted e) ∧
    (graylogLogsRun (Except.ok q) none lr = CmdOutcome.aborted "No graylog") ∧
    (graylogLogsRun (Except.ok q) (some g) (Except.error e2) = CmdOutcome.errorReported e2) ∧
    (graylogLogsRun (Except.ok q) (some g) (Except.ok bytes) = CmdOutcome.wroteOutput bytes) ∧
    (issueCreateRun opts (Except.error e) lr = CmdOutcome.aborted e) ∧
    (issueCreateRun opts (Except.ok d) (Except.error e2) = CmdOutcome.errorReported e2) ∧
    (issueCreateRun opts (Except.ok d) (Except.ok bytes) = CmdOutcome.wroteOutput bytes) :=
  ⟨rfl, rfl, rfl, rfl, rfl, rfl, rfl⟩

/-- Environment of the C9 exhibit: only the conventionally named
`GRAYLOG_OUTPUT_QUERY` is set. -/
def c9Env : String → Option String :=
  fun k => if k = "GRAYLOG_OUTPUT_QUERY" then some "logs-query" else none

/-- C9 exhibit: the `--graylog-output-query` flag default ignores the
same-named environment variable `GRAYLOG_OUTPUT_QUERY` (the source seeds the
field from the misspelled `GRAYLOG_OOUTPUT_QUERY`), so with the same-named
variable set the flag default stays the hard-coded empty string. -/
theorem c9_output_query_env_seeding :
    c9Env "GRAYLOG_OUTPUT_QUERY" = some "logs-query" ∧
    c9Env "GRAYLOG_OOUTPUT_QUERY" = none ∧
    (graylogOptionsInitial c9Env).outputQuery = "" ∧
    lookupFlag (graylogFlagDefaults (graylogOptionsInitial c9Env)) "graylog-output-query" =
      some "" :=
  ⟨rfl, rfl, rfl, rfl⟩

/-- C10: `NewJira` returns a client and a nil error for every options value,
so the fatal-abort branch of `jiraNew` taken on a constructor error is
unreachable: with content resolution succeeded, the create handler never
aborts. -/
theorem c10_newjira_never_fails (opts : JiraOptions) :
    newJira opts = Except.ok opts ∧
    jiraNew opts = Except.ok opts ∧
    (∀ (d : String) (callRes : Except String (List Nat)) (msg : String),
       issueCreateRun opts (Except.ok d) callRes ≠ CmdOutcome.aborted msg) := by
  refine ⟨rfl, rfl, ?_⟩
  intro d callRes msg
  cases callRes <;> simp [issueCreateRun, jiraNew, newJira]

theorem c10_newjira_never_fails_witness :
    issueCreateRun sampleJiraOptions (Except.ok "desc") (Except.ok []) ≠
      CmdOutcome.aborted "boom" :=
  (c10_newjira_never_fails sampleJiraOptions).2.2 "desc" (Except.ok []) "boom"

/-- The three-page assets server of the C1 witness, keyed on the request's
query string. -/
def sampleAssetsFetch (req : Request) : FetchResult :=
  if req.rawQuery = urlValuesEncode (assetsParams sampleAssetsOptions) then
    FetchResult.decoded (Json.obj
      [("objectEntries", Json.arr [Json.num 1]),
       ("objectTypeAttributes", Json.arr [Json.str "attr"]),
       ("pageSize", Json.num 3)])
  else if req.rawQuery =
      urlValuesEncode (valuesSet (assetsParams sampleAssetsOptions) "page" "2") then
    FetchResult.decoded (Json.obj [("objectEntries", Json.arr [Json.num 2])])
  else if req.rawQuery =
      urlValuesEncode (valuesSet (assetsParams sampleAssetsOptions) "page" "3") then
    FetchResult.decoded (Json.obj [("objectEntries", Json.arr [Json.num 3])])
  else FetchResult.httpError "unexpected request"

def samplePageJson (i : Nat) : Json :=
  Json.obj [("objectEntries", Json.arr [Json.num (Int.ofNat i)])]

def samplePageEntries (i : Nat) : List Json :=
  [Json.num (Int.ofNat i)]

theorem c1_assets_multi_page_search_witness :
    assetsCustomSearch "" sampleJiraOptions sampleAssetsOptions sampleAssetsFetch =
      (assetsRequest "" (getAuth sampleJiraOptions) (assetsParams sampleAssetsOptions) ::
         (List.range' 2 2).map
           (fun i => assetsRequest "" (getAuth sampleJiraOptions)
             (valuesSet (assetsParams sampleAssetsOptions) "page" (toString i))),
       GoResult.ok (Json.obj
         [("objects", Json.arr ([Json.num 1] ++
             ((List.range' 2 2).map samplePageEntries).flatten)),
          ("attributes", Json.arr [Json.str "attr"])])) :=
  c1_assets_multi_page_search "" sampleJiraOptions sampleAssetsOptions sampleAssetsFetch
    [("objectEntries", Json.arr [Json.num 1]),
     ("objectTypeAttributes", Json.arr [Json.str "attr"]),
     ("pageSize", Json.num 3)]
    [Json.num 1] [Json.str "attr"] 3 samplePageJson samplePageEntries
    rfl rfl rfl rfl (by decide)
    (fun i h2 h3 => by interval_cases i <;> rfl)
    (fun i h2 h3 => by interval_cases i <;> exact ⟨_, rfl, rfl⟩)

end Tools


